import Mathlib

/-!
Shallow embedding of the spudLink binary packet protocol engine
(src/spudLink/packetTool.py) together with the collaborator interfaces it
uses.  Pure functions of the source become Lean functions; the mutable
`PacketTool` object becomes an explicit state record threaded through each
operation.  Machine bytes are `Nat` with explicit masking where the source
masks; Python's unbounded signed `int` is `Int`.  Operations that can raise
an exception in Python (`ValueError` from an unknown packet-type code,
`IndexError` from an out-of-range array write) return `Option`.
-/

namespace SpudLink

/-- Modelled from the spec: `packetTypeEnum.py` is not part of the sources.
The members below are the ones used by the callers
(`controllerHandler.py`): NO_PKT, GET_DEVICE_INFO, LOG_MESSAGE,
HAND_GESTURE_DATA.  The concrete numeric codes are not visible in the
sources; distinct byte codes are assigned, which is all the protocol
relies on (§9 of the spec: a closed enumeration of packet type codes). -/
inductive PacketTypeEnum : Type where
  | NO_PKT : PacketTypeEnum
  | GET_DEVICE_INFO : PacketTypeEnum
  | LOG_MESSAGE : PacketTypeEnum
  | HAND_GESTURE_DATA : PacketTypeEnum
deriving DecidableEq, Repr

/-- The numeric wire code of a packet type (`PacketTypeEnum.value` in the
source). -/
def PacketTypeEnum.value : PacketTypeEnum → Nat
  | .NO_PKT => 0
  | .GET_DEVICE_INFO => 1
  | .LOG_MESSAGE => 2
  | .HAND_GESTURE_DATA => 3

/-- Looking a code up in the enumeration: Python's `PacketTypeEnum(n)`
constructor, which raises `ValueError` (here: `none`) for a code outside
the enumeration. -/
def PacketTypeEnum.fromValue (n : Nat) : Option PacketTypeEnum :=
  if n = 0 then some .NO_PKT
  else if n = 1 then some .GET_DEVICE_INFO
  else if n = 2 then some .LOG_MESSAGE
  else if n = 3 then some .HAND_GESTURE_DATA
  else none

/-- Modelled from the spec: `packetStatusEnum.py` is not part of the
sources.  The two members used by the core are PACKET_VALID and
DUPLEX_MATCH_ERROR (§4.4). -/
inductive PacketStatusEnum : Type where
  | PACKET_VALID : PacketStatusEnum
  | DUPLEX_MATCH_ERROR : PacketStatusEnum
deriving DecidableEq, Repr

/-- Modelled from the spec: `circularBuffer.py` is not part of the sources.
Per §4.1 the ring buffer is a FIFO queue of bytes with `available`,
`peek`, `retrieve`, a block read and `reset`.  The queue is modelled as a
list with the oldest byte at the head; the claims under verification stay
within the buffer's capacity, so the capacity/overflow policy (an open
question in §9 of the spec) is not modelled. -/
structure CircularBuffer : Type where
  data : List Nat
deriving DecidableEq, Repr

/-- Number of unread bytes (§4.1 `available`). -/
def CircularBuffer.available (b : CircularBuffer) : Nat := b.data.length

/-- Next unread byte without consuming it (§4.1 `peek`; the source only
peeks after checking `available`, so the empty case is never reached). -/
def CircularBuffer.peek (b : CircularBuffer) : Nat := b.data.headD 0

/-- Return and consume the next unread byte (§4.1 `retrieve`; the source
only retrieves after checking `available`, so the empty case is never
reached). -/
def CircularBuffer.retrieve (b : CircularBuffer) : Nat × CircularBuffer :=
  (b.data.headD 0, ⟨b.data.tail⟩)

/-- `IN_BUFFER_SIZE` from `PacketTool.__init__`. -/
def IN_BUFFER_SIZE : Nat := 1024

/-- `OUT_BUFFER_SIZE` from `PacketTool.__init__`. -/
def OUT_BUFFER_SIZE : Nat := 1024

/-- The mutable state of a `PacketTool` (packetTool.py lines 54-112).
`byteIn` is the attached input stream (a `CircularBuffer`, see
`setStreams`); the claims all operate on a tool with streams attached, so
the `Optional`/`None` stage before `setStreams` is not represented.  The
`reSynced`, `reSyncCount`, `reSyncSkip` and `reSyncPktID` fields of the
source are written only by `__init__`/`reset` and never read or updated
anywhere, so they are omitted.  The output socket (`byteOut`) is external
I/O and is not modelled; send functions return the prepared buffer and
byte count instead of flushing them. -/
structure PacketTool : Type where
  thisDeviceIdentifier : Nat
  inBuffer : List Nat
  outBuffer : List Nat
  byteIn : CircularBuffer
  pktType : PacketTypeEnum
  headerValid : Bool
  numPktDataBytes : Nat
  numDataBytesPlusChecksumByte : Nat
  pktChecksum : Nat
  destDeviceIdentifierFromReceivedPkt : Nat
  sourceDeviceIdentifierFromReceivedPkt : Nat
  resyncCount : Nat
deriving DecidableEq, Repr

/-- `PacketTool.__init__(pThisDeviceIdentifier)`: both fixed buffers are
filled with `SIZE + 1` zeros (the init loops run while `i <= SIZE`), the
input stream starts empty, and the parser session state starts cleared. -/
def mkPacketTool (pThisDeviceIdentifier : Nat) : PacketTool :=
  { thisDeviceIdentifier := pThisDeviceIdentifier
    inBuffer := List.replicate (IN_BUFFER_SIZE + 1) 0
    outBuffer := List.replicate (OUT_BUFFER_SIZE + 1) 0
    byteIn := ⟨[]⟩
    pktType := .NO_PKT
    headerValid := false
    numPktDataBytes := 0
    numDataBytesPlusChecksumByte := 0
    pktChecksum := 0
    destDeviceIdentifierFromReceivedPkt := 0
    sourceDeviceIdentifierFromReceivedPkt := 0
    resyncCount := 0 }

/-- `PacketTool.reset`. -/
def PacketTool.reset (s : PacketTool) : PacketTool :=
  { s with
    pktType := .NO_PKT
    headerValid := false
    numPktDataBytes := 0
    numDataBytesPlusChecksumByte := 0
    pktChecksum := 0
    destDeviceIdentifierFromReceivedPkt := 0
    sourceDeviceIdentifierFromReceivedPkt := 0
    resyncCount := 0 }

/-- `PacketTool.getPktType`. -/
def PacketTool.getPktType (s : PacketTool) : PacketTypeEnum := s.pktType

/-- The loop of `PacketTool.resync` (packetTool.py lines 375-377):
`peekForValue(0xaa)` is called until it returns true or the buffer
empties; each false invocation consumes exactly one byte, so the loop
discards bytes up to (excluding) the first 0xaa. -/
def resyncLoop : List Nat → List Nat
  | [] => []
  | b :: rest => if b = 0xaa then b :: rest else resyncLoop rest

/-- `PacketTool.resync`: increments `resyncCount` once and tosses bytes
until 0xaa is at the head of `byteIn` or it is empty. -/
def PacketTool.resync (s : PacketTool) : PacketTool :=
  { s with
    resyncCount := s.resyncCount + 1
    byteIn := ⟨resyncLoop s.byteIn.data⟩ }

/-- `PacketTool.checkForPacketHeaderAvailable` (packetTool.py lines
278-357).  `none` models the uncaught `ValueError` raised by
`PacketTypeEnum(pktTypeInt)` on a code outside the enumeration. -/
def PacketTool.checkForPacketHeaderAvailable (s : PacketTool) : Option PacketTool :=
  if s.byteIn.available < 7 then some s else
  let s0 := { s with pktChecksum := 0 }
  let r0 := s0.byteIn.retrieve
  if r0.1 ≠ 0xaa then some (PacketTool.resync { s0 with byteIn := r0.2 }) else
  let s1 := { s0 with byteIn := r0.2, pktChecksum := s0.pktChecksum + 0xaa }
  let r1 := s1.byteIn.retrieve
  if r1.1 ≠ 0x55 then some (PacketTool.resync { s1 with byteIn := r1.2 }) else
  let s2 := { s1 with byteIn := r1.2, pktChecksum := s1.pktChecksum + 0x55 }
  let r2 := s2.byteIn.retrieve
  let s3 := { s2 with byteIn := r2.2,
                      destDeviceIdentifierFromReceivedPkt := r2.1,
                      pktChecksum := s2.pktChecksum + r2.1 }
  let r3 := s3.byteIn.retrieve
  let s4 := { s3 with byteIn := r3.2,
                      sourceDeviceIdentifierFromReceivedPkt := r3.1,
                      pktChecksum := s3.pktChecksum + r3.1 }
  let r4 := s4.byteIn.retrieve
  let s5 := { s4 with byteIn := r4.2, pktChecksum := s4.pktChecksum + r4.1 }
  match PacketTypeEnum.fromValue r4.1 with
  | none => none
  | some t =>
    let s6 := { s5 with pktType := t }
    let r5 := s6.byteIn.retrieve
    let s7 := { s6 with byteIn := r5.2, pktChecksum := s6.pktChecksum + r5.1 }
    let r6 := s7.byteIn.retrieve
    let s8 := { s7 with byteIn := r6.2, pktChecksum := s7.pktChecksum + r6.1 }
    let n := ((r5.1 <<< 8) &&& 0xff00) + (r6.1 &&& 0xff)
    some { s8 with numPktDataBytes := n,
                   numDataBytesPlusChecksumByte := n + 1,
                   headerValid := true }

/-- The part of `PacketTool.checkForPacketReady` that runs once a valid
header is on record (packetTool.py lines 249-269): wait for payload +
checksum, consume them into `inBuffer`, filter on destination id, then
validate the 8-bit checksum of the whole packet. -/
def PacketTool.checkForPacketReadyBody (s : PacketTool) : Bool × PacketTool :=
  if s.byteIn.available < s.numDataBytesPlusChecksumByte then (false, s) else
  let n := s.numDataBytesPlusChecksumByte
  let s1 := { s with headerValid := false,
                     inBuffer := s.byteIn.data.take n ++ s.inBuffer.drop n,
                     byteIn := ⟨s.byteIn.data.drop n⟩ }
  if s1.destDeviceIdentifierFromReceivedPkt ≠ s1.thisDeviceIdentifier then (false, s1) else
  let s2 := { s1 with pktChecksum := s1.pktChecksum + (s1.inBuffer.take n).sum }
  if s2.pktChecksum &&& 0xff ≠ 0 then (false, s2) else
  (true, s2)

/-- `PacketTool.checkForPacketReady` (packetTool.py lines 207-269): if no
header is on record yet, try to parse one (possibly resyncing); report
not-ready if there is still no header; otherwise run the payload phase.
`none` models the uncaught `ValueError` of the header parse.  The
`byteIn is None` early return of the source cannot fire once streams are
attached (`setStreams`), which is the state modelled here. -/
def PacketTool.checkForPacketReady (s : PacketTool) : Option (Bool × PacketTool) :=
  match (if s.headerValid then some s else s.checkForPacketHeaderAvailable) with
  | none => none
  | some s1 =>
    if s1.headerValid then some s1.checkForPacketReadyBody
    else some (false, s1)

/-- `PacketTool.prepareHeader` (packetTool.py lines 419-483): writes the
7-byte header at the start of `outBuffer` and returns the next free
index. -/
def PacketTool.prepareHeader (s : PacketTool) (pDestAddress : Nat)
    (pPacketType : PacketTypeEnum) (pNumDataBytes : Nat) : PacketTool × Nat :=
  let buf := s.outBuffer
  let buf := buf.set 0 0xaa
  let buf := buf.set 1 0x55
  let buf := buf.set 2 pDestAddress
  let buf := buf.set 3 s.thisDeviceIdentifier
  let buf := buf.set 4 pPacketType.value
  let buf := buf.set 5 ((pNumDataBytes >>> 8) &&& 0xff)
  let buf := buf.set 6 (pNumDataBytes &&& 0xff)
  ({ s with outBuffer := buf }, 7)

/-- `PacketTool.calculateChecksumAndStoreInBuffer` (packetTool.py lines
492-524): sums `outBuffer[0..pLastIndex)`, stores `0x100 - (sum & 0xff)`
at `pLastIndex`, and returns `pLastIndex + 1`.  The store goes into a
byte array: when the computed value is 0x100 (sum divisible by 256) the
assignment raises `OverflowError`, which the source catches and swallows
(printing only), so the buffer keeps its previous byte there; the
function still returns the full packet length. -/
def PacketTool.calculateChecksumAndStoreInBuffer (s : PacketTool)
    (pLastIndex : Nat) : PacketTool × Nat :=
  let checksum := (s.outBuffer.take pLastIndex).sum
  let v := 0x100 - (checksum &&& 0xff)
  let buf := if v ≤ 0xff then s.outBuffer.set pLastIndex v else s.outBuffer
  ({ s with outBuffer := buf }, pLastIndex + 1)

/-- `PacketTool.setPacketNumDataBytes` (packetTool.py lines 533-558):
stores the low 16 bits of the count big-endian at offsets 5 and 6. -/
def PacketTool.setPacketNumDataBytes (s : PacketTool) (pNumDataBytes : Nat) : PacketTool :=
  let buf := s.outBuffer.set 5 ((pNumDataBytes >>> 8) &&& 0xff)
  let buf := buf.set 6 (pNumDataBytes &&& 0xff)
  { s with outBuffer := buf }

/-- Python `(n >> 8) & 0xff` on a signed `int`: arithmetic shift is floor
division and masking a (possibly negative) `int` with 0xff is its
euclidean remainder mod 256. -/
def pyHighByte (n : Int) : Nat := ((n.fdiv 256) % 256).toNat

/-- Python `n & 0xff` on a signed `int`. -/
def pyLowByte (n : Int) : Nat := (n % 256).toNat

/-- The inner `for anInt in aTuple` loop of
`PacketTool.sendSignedShortIntsFromListOfTuples` (packetTool.py lines
694-708).  Arguments: buffer, write index `x`, running `numDataBytes`.
`break` leaves only this inner loop.  A write at an index beyond the end
of the array raises `IndexError` in Python, which nothing catches:
modelled as `none`. -/
def sendShortsInner (buf : List Nat) (x numDataBytes : Nat) :
    List Int → Option (List Nat × Nat × Nat)
  | [] => some (buf, x, numDataBytes)
  | anInt :: rest =>
    if x < buf.length then
      let buf1 := buf.set x (pyHighByte anInt)
      if x + 1 = OUT_BUFFER_SIZE - 1 then some (buf1, x + 1, numDataBytes + 1)
      else if x + 1 < buf1.length then
        let buf2 := buf1.set (x + 1) (pyLowByte anInt)
        if x + 2 = OUT_BUFFER_SIZE - 1 then some (buf2, x + 2, numDataBytes + 2)
        else sendShortsInner buf2 (x + 2) (numDataBytes + 2) rest
      else none
    else none

/-- The outer `for aTuple in pData` loop of
`PacketTool.sendSignedShortIntsFromListOfTuples`: after an inner `break`
the outer loop still continues with the next tuple. -/
def sendShortsOuter (buf : List Nat) (x numDataBytes : Nat) :
    List (List Int) → Option (List Nat × Nat × Nat)
  | [] => some (buf, x, numDataBytes)
  | aTuple :: ts =>
    match sendShortsInner buf x numDataBytes aTuple with
    | none => none
    | some (buf1, x1, nd1) => sendShortsOuter buf1 x1 nd1 ts

/-- `PacketTool.sendSignedShortIntsFromListOfTuples` (packetTool.py lines
656-714) up to and excluding the socket flush (`sendOutBuffer` performs
external I/O): prepares a header with a placeholder length, streams the
low 16 bits of every int big-endian, patches the real data-byte count
into the header, computes the checksum, and returns the state plus the
packet length that would be flushed.  `none` models an uncaught
`IndexError` from a write past the end of the output array. -/
def PacketTool.sendSignedShortIntsFromListOfTuples (s : PacketTool)
    (pDestAddress : Nat) (pPacketType : PacketTypeEnum)
    (pData : List (List Int)) : Option (PacketTool × Nat) :=
  let h := s.prepareHeader pDestAddress pPacketType 1
  match sendShortsOuter h.1.outBuffer h.2 0 pData with
  | none => none
  | some (buf, x, numDataBytes) =>
    let s1 := { h.1 with outBuffer := buf }
    let s2 := s1.setPacketNumDataBytes numDataBytes
    some (s2.calculateChecksumAndStoreInBuffer x)

/-- `PacketTool.signExtend` (packetTool.py lines 723-746).  The source
operates on a Python `int`; every call site passes the non-negative
result of byte reassembly, and claim C8 restricts to `0 ≤ pValue`, so the
value is a `Nat` here while the result is the full signed integer. -/
def PacketTool.signExtend (pValue : Nat) (pBits : Nat) : Int :=
  let signBit := 1 <<< (pBits - 1)
  let mask := signBit - 1
  ((pValue &&& mask : Nat) : Int) - ((pValue &&& signBit : Nat) : Int)

/-- `PacketTool.parseDuplexIntegerFromPacket` (packetTool.py lines
794-850): reads a big-endian 16-bit value and its duplex copy from
`inBuffer` at `pIndex`, sign-extends both, compares them, and returns
(status, next index, value).  The callers guarantee four readable bytes
(claim C9's hypothesis), so the reads use a default instead of modelling
`IndexError`. -/
def PacketTool.parseDuplexIntegerFromPacket (s : PacketTool) (pIndex : Nat) :
    PacketStatusEnum × Nat × Int :=
  let valueMSB := s.inBuffer.getD pIndex 0
  let valueLSB := s.inBuffer.getD (pIndex + 1) 0
  let value := PacketTool.signExtend (((valueMSB <<< 8) &&& 0xff00) + (valueLSB &&& 0xff)) 16
  let copyMSB := s.inBuffer.getD (pIndex + 2) 0
  let copyLSB := s.inBuffer.getD (pIndex + 3) 0
  let copy := PacketTool.signExtend (((copyMSB <<< 8) &&& 0xff00) + (copyLSB &&& 0xff)) 16
  let status := if value = copy then PacketStatusEnum.PACKET_VALID
                else PacketStatusEnum.DUPLEX_MATCH_ERROR
  (status, pIndex + 4, value)

/-- Sequential byte writes `outBuffer[x] = b; x += 1` as performed by the
client code that fills a packet's payload between `prepareHeader` and
`calculateChecksumAndStoreInBuffer` (for example the string loop of
`sendString`, packetTool.py lines 631-638). -/
def writeBytesAt (buf : List Nat) (i : Nat) : List Nat → List Nat
  | [] => buf
  | b :: rest => writeBytesAt (buf.set i b) (i + 1) rest

/-- Building one outgoing packet on a freshly constructed tool: header,
payload bytes, checksum.  Returns the final state and the packet length
(`calculateChecksumAndStoreInBuffer`'s return value). -/
def buildPacket (srcId destId : Nat) (t : PacketTypeEnum)
    (payload : List Nat) : PacketTool × Nat :=
  let h := (mkPacketTool srcId).prepareHeader destId t payload.length
  let s := { h.1 with outBuffer := writeBytesAt h.1.outBuffer h.2 payload }
  s.calculateChecksumAndStoreInBuffer (h.2 + payload.length)

/-- The bytes of a freshly built packet as they would go on the wire. -/
def encodePacket (srcId destId : Nat) (t : PacketTypeEnum)
    (payload : List Nat) : List Nat :=
  let b := buildPacket srcId destId t payload
  b.1.outBuffer.take b.2

/-- The 7 header bytes `prepareHeader` produces. -/
def headerBytes (destId srcId : Nat) (t : PacketTypeEnum) (numDataBytes : Nat) : List Nat :=
  [0xaa, 0x55, destId, srcId, t.value,
   (numDataBytes >>> 8) &&& 0xff, numDataBytes &&& 0xff]

/-- The checksum byte actually present in a freshly built packet: the
stored `0x100 - (sum % 256)` when that fits a byte, and the untouched 0
of the fresh buffer otherwise — in both cases `(0x100 - sum % 256) % 256`. -/
def checksumByte (sumSoFar : Nat) : Nat := (0x100 - sumSoFar % 256) % 256

/-- Appending one received byte to the tool's input stream. -/
def feedByte (s : PacketTool) (b : Nat) : PacketTool :=
  { s with byteIn := ⟨s.byteIn.data ++ [b]⟩ }

/-- Delivering a byte sequence one byte at a time with one
`checkForPacketReady` poll after each byte; returns the list of poll
results and the final state. -/
def pollSeq (s : PacketTool) : List Nat → Option (List Bool × PacketTool)
  | [] => some ([], s)
  | b :: rest =>
    match (feedByte s b).checkForPacketReady with
    | none => none
    | some (r, s1) =>
      match pollSeq s1 rest with
      | none => none
      | some (rs, s2) => some (r :: rs, s2)

/-- The state of a `PacketTool` right after a full packet's bytes (header
`0xaa 0x55 d sr tv m l`, then `body` = payload plus checksum byte) have
been consumed out of an input stream that still holds `extra` more bytes:
header fields recorded, body copied to the front of `inBuffer`,
`pktChecksum` holding the header sum (the body sum is added only after
the destination check). -/
def afterReadState (s : PacketTool) (d sr tv m l : Nat) (t : PacketTypeEnum)
    (body extra : List Nat) : PacketTool :=
  { s with headerValid := false,
           byteIn := ⟨extra⟩,
           inBuffer := body ++ s.inBuffer.drop (((m <<< 8) &&& 0xff00) + (l &&& 0xff) + 1),
           pktChecksum := 0xaa + 0x55 + d + sr + tv + m + l,
           destDeviceIdentifierFromReceivedPkt := d,
           sourceDeviceIdentifierFromReceivedPkt := sr,
           pktType := t,
           numPktDataBytes := ((m <<< 8) &&& 0xff00) + (l &&& 0xff),
           numDataBytesPlusChecksumByte := ((m <<< 8) &&& 0xff00) + (l &&& 0xff) + 1 }

/-- `afterReadState` once the destination check has passed and the body
bytes have been summed into the running checksum. -/
def afterSumState (s : PacketTool) (d sr tv m l : Nat) (t : PacketTypeEnum)
    (body extra : List Nat) : PacketTool :=
  { afterReadState s d sr tv m l t body extra with
      pktChecksum := 0xaa + 0x55 + d + sr + tv + m + l + body.sum }

/-- The state of a fresh tool for device `recvId` after the first `j` bytes
of the encoded packet `encodePacket srcId recvId t payload` have been fed
one at a time with a `checkForPacketReady` poll after each byte: for
`j < 7` the bytes simply accumulate in the input stream; from `j = 7` on
the header has been consumed and its fields recorded, and the remaining
`j - 7` delivered bytes of payload-plus-checksum wait in the stream. -/
def c6State (recvId srcId : Nat) (t : PacketTypeEnum) (payload : List Nat)
    (j : Nat) : PacketTool :=
  if j < 7 then
    { mkPacketTool recvId with
        byteIn := ⟨(encodePacket srcId recvId t payload).take j⟩ }
  else
    { mkPacketTool recvId with
        byteIn := ⟨(payload
          ++ [checksumByte ((headerBytes recvId srcId t payload.length).sum
                + payload.sum)]).take (j - 7)⟩,
        headerValid := true,
        pktChecksum := 0xaa + 0x55 + recvId + srcId + t.value
          + ((payload.length >>> 8) &&& 0xff) + (payload.length &&& 0xff),
        destDeviceIdentifierFromReceivedPkt := recvId,
        sourceDeviceIdentifierFromReceivedPkt := srcId,
        pktType := t,
        numPktDataBytes := payload.length,
        numDataBytesPlusChecksumByte := payload.length + 1 }

/-- The state after the final byte of the packet arrives and the poll
reports ready: body consumed into `inBuffer`, stream empty, header search
re-armed. -/
def c6FinalState (recvId srcId : Nat) (t : PacketTypeEnum) (payload : List Nat) :
    PacketTool :=
  { mkPacketTool recvId with
      headerValid := false,
      byteIn := ⟨[]⟩,
      inBuffer := (payload
          ++ [checksumByte ((headerBytes recvId srcId t payload.length).sum
                + payload.sum)])
        ++ (mkPacketTool recvId).inBuffer.drop (payload.length + 1),
      pktChecksum := 0xaa + 0x55 + recvId + srcId + t.value
        + ((payload.length >>> 8) &&& 0xff) + (payload.length &&& 0xff)
        + (payload
            ++ [checksumByte ((headerBytes recvId srcId t payload.length).sum
                  + payload.sum)]).sum,
      destDeviceIdentifierFromReceivedPkt := recvId,
      sourceDeviceIdentifierFromReceivedPkt := srcId,
      pktType := t,
      numPktDataBytes := payload.length,
      numDataBytesPlusChecksumByte := payload.length + 1 }

/-- Flipping bit `k` of the packet byte at offset `7 + i`, i.e. of payload
byte `i` (the payload occupies offsets 7 .. 6 + length in an encoded
packet, after the 7 header bytes). -/
def flipPayloadBit (pkt : List Nat) (i k : Nat) : List Nat :=
  pkt.set (7 + i) (pkt.getD (7 + i) 0 ^^^ (1 <<< k))

/-! ### List and bit-arithmetic helper lemmas -/

theorem and255_eq_mod (n : Nat) : n &&& 0xff = n % 256 := by
  simpa using Nat.and_pow_two_sub_one_eq_mod n 8

theorem shiftLeft_and_shiftLeft (a b n : Nat) :
    (a <<< n) &&& (b <<< n) = (a &&& b) <<< n := by
  apply Nat.eq_of_testBit_eq
  intro i
  simp only [Nat.testBit_and, Nat.testBit_shiftLeft]
  cases h : decide (i ≥ n) <;> simp

theorem decodeLen (n : Nat) (h : n < 65536) :
    ((((n >>> 8) &&& 0xff) <<< 8) &&& 0xff00) + ((n &&& 0xff) &&& 0xff) = n := by
  have h1 : (0xff00 : Nat) = 0xff <<< 8 := by decide
  have h2 : (((n >>> 8) &&& 0xff) <<< 8) &&& 0xff00 = (((n >>> 8) &&& 0xff) &&& 0xff) <<< 8 := by
    rw [h1, shiftLeft_and_shiftLeft]
  rw [h2]
  have h3 : ∀ m : Nat, (m &&& 0xff) &&& 0xff = m &&& 0xff := by
    intro m
    rw [and255_eq_mod (m &&& 0xff), and255_eq_mod m]
    omega
  rw [h3, h3, and255_eq_mod, and255_eq_mod, Nat.shiftRight_eq_div_pow, Nat.shiftLeft_eq]
  have h4 : n / 2 ^ 8 % 256 = n / 256 := by
    apply Nat.mod_eq_of_lt
    omega
  rw [h4]
  omega

theorem set_append_cons (pre : List Nat) (m : Nat) (rest : List Nat) (b : Nat) :
    (pre ++ m :: rest).set pre.length b = pre ++ b :: rest := by
  induction pre with
  | nil => rfl
  | cons a l ih => simp [ih]

theorem writeBytesAt_append (bs : List Nat) : ∀ (pre mid post : List Nat),
    mid.length = bs.length →
    writeBytesAt (pre ++ (mid ++ post)) pre.length bs = pre ++ (bs ++ post) := by
  induction bs with
  | nil =>
    intro pre mid post h
    have hm : mid = [] := List.eq_nil_of_length_eq_zero h
    subst hm
    simp [writeBytesAt]
  | cons b bs ih =>
    intro pre mid post h
    match mid, h with
    | m :: mid2, h =>
      have hlen : mid2.length = bs.length := by simpa using h
      show writeBytesAt ((pre ++ (m :: mid2 ++ post)).set pre.length b) (pre.length + 1) bs = _
      have h1 : (pre ++ (m :: mid2 ++ post)).set pre.length b
          = (pre ++ [b]) ++ (mid2 ++ post) := by
        rw [show (m :: mid2) ++ post = m :: (mid2 ++ post) from rfl, set_append_cons]
        simp
      have h3 : (pre ++ [b]).length = pre.length + 1 := by simp
      rw [h1, ← h3, ih (pre ++ [b]) mid2 post hlen]
      simp

theorem take_append_length (l1 l2 : List Nat) (n : Nat) (h : l1.length = n) :
    (l1 ++ l2).take n = l1 := by
  subst h
  exact List.take_left l1 l2

/-! ### Encoder characterization -/

theorem prepareHeader_fresh (srcId destId n : Nat) (t : PacketTypeEnum) :
    (mkPacketTool srcId).prepareHeader destId t n =
      ({ mkPacketTool srcId with
          outBuffer := headerBytes destId srcId t n ++ List.replicate 1018 0 }, 7) := by
  rfl

theorem encodePacket_eq (srcId destId : Nat) (t : PacketTypeEnum) (payload : List Nat)
    (h : payload.length ≤ 1017) :
    encodePacket srcId destId t payload =
      headerBytes destId srcId t payload.length ++ payload ++
        [checksumByte ((headerBytes destId srcId t payload.length).sum + payload.sum)] := by
  unfold encodePacket buildPacket
  rw [prepareHeader_fresh]
  have hhdr7 : (headerBytes destId srcId t payload.length).length = 7 := by
    simp [headerBytes]
  have hsplit : List.replicate 1018 (0:Nat)
      = List.replicate payload.length 0 ++ (0 :: List.replicate (1017 - payload.length) 0) := by
    rw [← List.replicate_succ, ← List.replicate_add]
    congr 1
    omega
  have hw : writeBytesAt (headerBytes destId srcId t payload.length ++ List.replicate 1018 0)
        7 payload
      = headerBytes destId srcId t payload.length
          ++ (payload ++ (0 :: List.replicate (1017 - payload.length) 0)) := by
    rw [hsplit, ← hhdr7]
    exact writeBytesAt_append payload _ _ _ (by simp)
  simp only [hw]
  unfold PacketTool.calculateChecksumAndStoreInBuffer
  have hassoc : headerBytes destId srcId t payload.length
        ++ (payload ++ (0 :: List.replicate (1017 - payload.length) 0))
      = (headerBytes destId srcId t payload.length ++ payload)
          ++ (0 :: List.replicate (1017 - payload.length) 0) := by
    simp [List.append_assoc]
  have hlen2 : (headerBytes destId srcId t payload.length ++ payload).length
      = 7 + payload.length := by
    simp [hhdr7]
  have hsum : ((headerBytes destId srcId t payload.length
        ++ (payload ++ (0 :: List.replicate (1017 - payload.length) 0))).take
          (7 + payload.length)).sum
      = (headerBytes destId srcId t payload.length).sum + payload.sum := by
    rw [hassoc, ← hlen2, List.take_left]
    simp
  simp only [hsum, and255_eq_mod]
  by_cases hz :
      ((headerBytes destId srcId t payload.length).sum + payload.sum) % 256 = 0
  · rw [if_neg (by omega)]
    simp only [checksumByte, hz]
    rw [hassoc]
    have hsplit2 : (headerBytes destId srcId t payload.length ++ payload)
          ++ (0 :: List.replicate (1017 - payload.length) 0)
        = ((headerBytes destId srcId t payload.length ++ payload) ++ [0])
          ++ List.replicate (1017 - payload.length) 0 := by
      simp
    rw [hsplit2, take_append_length _ _ _ (by simp [hhdr7]; omega)]
  · rw [if_pos (by omega)]
    simp only [checksumByte]
    rw [hassoc]
    rw [← hlen2, set_append_cons, hlen2]
    have hsplit2 : (headerBytes destId srcId t payload.length ++ payload)
          ++ (0x100 - ((headerBytes destId srcId t payload.length).sum + payload.sum) % 256)
            :: List.replicate (1017 - payload.length) 0
        = ((headerBytes destId srcId t payload.length ++ payload)
            ++ [0x100 - ((headerBytes destId srcId t payload.length).sum + payload.sum) % 256])
          ++ List.replicate (1017 - payload.length) 0 := by
      simp
    rw [hsplit2, take_append_length _ _ _ (by simp [hhdr7]; omega)]
    have hb : (0x100 - ((headerBytes destId srcId t payload.length).sum + payload.sum) % 256) % 256
        = 0x100 - ((headerBytes destId srcId t payload.length).sum + payload.sum) % 256 := by
      have : ((headerBytes destId srcId t payload.length).sum + payload.sum) % 256 < 256 :=
        Nat.mod_lt _ (by norm_num)
      omega
    rw [hb]

theorem drop_append_length (l1 l2 : List Nat) (n : Nat) (h : l1.length = n) :
    (l1 ++ l2).drop n = l2 := by
  subst h
  exact List.drop_left l1 l2

/-! ### Decoder characterization -/

theorem header_short (s : PacketTool) (h : s.byteIn.available < 7) :
    s.checkForPacketHeaderAvailable = some s := by
  unfold PacketTool.checkForPacketHeaderAvailable
  rw [if_pos h]

theorem header_parse (s : PacketTool) (d sr tv m l : Nat) (t : PacketTypeEnum)
    (rest : List Nat)
    (hb : s.byteIn.data = 0xaa :: 0x55 :: d :: sr :: tv :: m :: l :: rest)
    (ht : PacketTypeEnum.fromValue tv = some t) :
    s.checkForPacketHeaderAvailable = some
      { s with byteIn := ⟨rest⟩,
               pktChecksum := 0xaa + 0x55 + d + sr + tv + m + l,
               destDeviceIdentifierFromReceivedPkt := d,
               sourceDeviceIdentifierFromReceivedPkt := sr,
               pktType := t,
               numPktDataBytes := ((m <<< 8) &&& 0xff00) + (l &&& 0xff),
               numDataBytesPlusChecksumByte := ((m <<< 8) &&& 0xff00) + (l &&& 0xff) + 1,
               headerValid := true } := by
  have hav : ¬ s.byteIn.available < 7 := by
    simp [CircularBuffer.available, hb]
  unfold PacketTool.checkForPacketHeaderAvailable
  rw [if_neg hav]
  simp [CircularBuffer.retrieve, hb, ht]

theorem header_resync (s : PacketTool) (g0 : Nat) (grest : List Nat)
    (hb : s.byteIn.data = g0 :: grest)
    (hlen : ¬ s.byteIn.available < 7)
    (hg : g0 ≠ 0xaa) :
    s.checkForPacketHeaderAvailable = some
      { s with pktChecksum := 0,
               byteIn := ⟨resyncLoop grest⟩,
               resyncCount := s.resyncCount + 1 } := by
  unfold PacketTool.checkForPacketHeaderAvailable
  rw [if_neg hlen]
  simp [CircularBuffer.retrieve, hb, hg, PacketTool.resync]

theorem resyncLoop_no_aa (g : List Nat) (r : List Nat)
    (hg : ∀ b ∈ g, b ≠ 0xaa) :
    resyncLoop (g ++ 0xaa :: r) = 0xaa :: r := by
  induction g with
  | nil => simp [resyncLoop]
  | cons b g2 ih =>
    have hb : b ≠ 0xaa := hg b (by simp)
    simp only [List.cons_append, resyncLoop, if_neg hb]
    exact ih fun x hx => hg x (by simp [hx])

theorem body_not_enough (s : PacketTool)
    (h : s.byteIn.available < s.numDataBytesPlusChecksumByte) :
    s.checkForPacketReadyBody = (false, s) := by
  unfold PacketTool.checkForPacketReadyBody
  rw [if_pos h]

theorem body_run (s : PacketTool) (body extra : List Nat)
    (hb : s.byteIn.data = body ++ extra)
    (hlen : body.length = s.numDataBytesPlusChecksumByte) :
    s.checkForPacketReadyBody =
      (let s1 : PacketTool :=
        { s with headerValid := false,
                 inBuffer := body ++ s.inBuffer.drop s.numDataBytesPlusChecksumByte,
                 byteIn := ⟨extra⟩ }
       if s.destDeviceIdentifierFromReceivedPkt ≠ s.thisDeviceIdentifier then (false, s1)
       else
         let s2 : PacketTool := { s1 with pktChecksum := s.pktChecksum + body.sum }
         if (s.pktChecksum + body.sum) &&& 0xff ≠ 0 then (false, s2) else (true, s2)) := by
  have hav : ¬ s.byteIn.available < s.numDataBytesPlusChecksumByte := by
    simp only [CircularBuffer.available, hb, List.length_append]
    omega
  unfold PacketTool.checkForPacketReadyBody
  rw [if_neg hav]
  simp only [hb, take_append_length body extra _ hlen, drop_append_length body extra _ hlen]
  have htake : (body ++ s.inBuffer.drop s.numDataBytesPlusChecksumByte).take
      s.numDataBytesPlusChecksumByte = body :=
    take_append_length _ _ _ hlen
  simp only [htake]

theorem ready_with_header (s : PacketTool) (h : s.headerValid = true) :
    s.checkForPacketReady = some s.checkForPacketReadyBody := by
  unfold PacketTool.checkForPacketReady
  rw [h]
  simp [h]

theorem ready_parse_then_body (s s2 : PacketTool) (hnv : s.headerValid = false)
    (hparse : s.checkForPacketHeaderAvailable = some s2)
    (h2 : s2.headerValid = true) :
    s.checkForPacketReady = some s2.checkForPacketReadyBody := by
  unfold PacketTool.checkForPacketReady
  rw [hnv]
  simp [hparse, h2]

theorem ready_parse_no_header (s s2 : PacketTool) (hnv : s.headerValid = false)
    (hparse : s.checkForPacketHeaderAvailable = some s2)
    (h2 : s2.headerValid = false) :
    s.checkForPacketReady = some (false, s2) := by
  unfold PacketTool.checkForPacketReady
  rw [hnv]
  simp [hparse, h2]

theorem sum_packet_mod (S : Nat) : (S + checksumByte S) % 256 = 0 := by
  unfold checksumByte
  omega

theorem ready_full (s : PacketTool) (d sr tv m l : Nat) (t : PacketTypeEnum)
    (body extra : List Nat)
    (hnv : s.headerValid = false)
    (ht : PacketTypeEnum.fromValue tv = some t)
    (hb : s.byteIn.data = 0xaa :: 0x55 :: d :: sr :: tv :: m :: l :: (body ++ extra))
    (hlen : body.length = ((m <<< 8) &&& 0xff00) + (l &&& 0xff) + 1) :
    s.checkForPacketReady = some (
      if d ≠ s.thisDeviceIdentifier then
        (false, afterReadState s d sr tv m l t body extra)
      else if (0xaa + 0x55 + d + sr + tv + m + l + body.sum) &&& 0xff ≠ 0 then
        (false, afterSumState s d sr tv m l t body extra)
      else (true, afterSumState s d sr tv m l t body extra)) := by
  have hparse := header_parse s d sr tv m l t (body ++ extra) hb ht
  rw [ready_parse_then_body s _ hnv hparse rfl]
  rw [body_run _ body extra rfl (by simpa using hlen)]
  simp only [afterReadState, afterSumState]

theorem fromValue_value (t : PacketTypeEnum) :
    PacketTypeEnum.fromValue t.value = some t := by
  cases t <;> rfl

theorem headerBytes_sum (d sr : Nat) (t : PacketTypeEnum) (n : Nat) :
    (headerBytes d sr t n).sum
      = 0xaa + 0x55 + d + sr + t.value + ((n >>> 8) &&& 0xff) + (n &&& 0xff) := by
  simp [headerBytes]
  omega

/-- Accepting a freshly delivered valid packet: any tool whose device id is
the packet's destination, with no header pending and exactly the encoded
packet in its input stream, reports ready with the fully decoded state. -/
theorem ready_accept_fresh (s : PacketTool) (srcId destId : Nat) (t : PacketTypeEnum)
    (payload : List Nat)
    (hthis : s.thisDeviceIdentifier = destId)
    (hnv : s.headerValid = false)
    (hlen : payload.length ≤ 1017)
    (hb : s.byteIn.data = encodePacket srcId destId t payload) :
    s.checkForPacketReady = some (true,
      afterSumState s destId srcId t.value ((payload.length >>> 8) &&& 0xff)
        (payload.length &&& 0xff) t
        (payload
          ++ [checksumByte ((headerBytes destId srcId t payload.length).sum + payload.sum)])
        []) := by
  set m := (payload.length >>> 8) &&& 0xff with hm
  set l := payload.length &&& 0xff with hl
  set cs := checksumByte ((headerBytes destId srcId t payload.length).sum + payload.sum)
    with hcs
  have hdecode : ((m <<< 8) &&& 0xff00) + (l &&& 0xff) = payload.length := by
    rw [hm, hl]
    exact decodeLen _ (by omega)
  have hb2 : s.byteIn.data
      = 0xaa :: 0x55 :: destId :: srcId :: t.value :: m :: l
          :: ((payload ++ [cs]) ++ []) := by
    rw [hb, encodePacket_eq srcId destId t payload hlen]
    simp [headerBytes, hm, hl, hcs]
  have hlb : (payload ++ [cs]).length = ((m <<< 8) &&& 0xff00) + (l &&& 0xff) + 1 := by
    simp [hdecode]
  have hfull := ready_full s destId srcId t.value m l t (payload ++ [cs]) [] hnv
    (fromValue_value t) hb2 hlb
  have hs := sum_packet_mod ((headerBytes destId srcId t payload.length).sum + payload.sum)
  rw [← hcs, headerBytes_sum, ← hm, ← hl] at hs
  rw [hfull]
  rw [if_neg (by simp [hthis]), if_neg (by simp [and255_eq_mod]; omega)]

/-! ### The claims -/

/-- C1: round-trip through the protocol engine.  For every destination id
equal to the decoder's own device id, every packet type in the
enumeration, and every payload of bytes that fits the fixed send buffer,
building the packet with `prepareHeader`, writing the payload bytes and
finishing with `calculateChecksumAndStoreInBuffer`, then delivering all
of the packet's bytes into a freshly constructed `PacketTool`'s input
buffer makes `checkForPacketReady` return true with `getPktType` equal to
the sent packet type and the first `numPktDataBytes` entries of the
receive data buffer equal to the sent payload bytes. -/
theorem C1_round_trip (srcId destId : Nat) (t : PacketTypeEnum) (payload : List Nat)
    (hsrc : srcId ≤ 255) (hdest : destId ≤ 255)
    (hbytes : ∀ b ∈ payload, b ≤ 255)
    (hfit : 7 + payload.length + 1 ≤ OUT_BUFFER_SIZE + 1) :
    ∃ s2 : PacketTool,
      PacketTool.checkForPacketReady
          { mkPacketTool destId with byteIn := ⟨encodePacket srcId destId t payload⟩ }
        = some (true, s2)
      ∧ s2.getPktType = t
      ∧ s2.numPktDataBytes = payload.length
      ∧ s2.inBuffer.take s2.numPktDataBytes = payload := by
  have hlen : payload.length ≤ 1017 := by
    simp only [OUT_BUFFER_SIZE] at hfit
    omega
  have hdecode : ((((payload.length >>> 8) &&& 0xff) <<< 8) &&& 0xff00)
      + ((payload.length &&& 0xff) &&& 0xff) = payload.length :=
    decodeLen _ (by omega)
  refine ⟨afterSumState
      { mkPacketTool destId with byteIn := ⟨encodePacket srcId destId t payload⟩ }
      destId srcId t.value ((payload.length >>> 8) &&& 0xff) (payload.length &&& 0xff) t
      (payload
        ++ [checksumByte ((headerBytes destId srcId t payload.length).sum + payload.sum)])
      [], ?_, ?_, ?_, ?_⟩
  · exact ready_accept_fresh _ srcId destId t payload (by simp [mkPacketTool]) rfl hlen rfl
  · simp [afterSumState, afterReadState, PacketTool.getPktType]
  · simp [afterSumState, afterReadState, hdecode]
  · simp only [afterSumState, afterReadState, hdecode]
    rw [List.append_assoc, take_append_length _ _ _ rfl]

/-- Witness for C1 at a concrete input: source device 0 sends a
LOG_MESSAGE packet with payload `[72, 105]` to device 1. -/
theorem C1_round_trip_witness :
    (0:Nat) ≤ 255 ∧ (1:Nat) ≤ 255 ∧ (∀ b ∈ [72, 105], b ≤ 255)
      ∧ 7 + [72, 105].length + 1 ≤ OUT_BUFFER_SIZE + 1
      ∧ ∃ s2 : PacketTool,
          PacketTool.checkForPacketReady
              { mkPacketTool 1 with
                  byteIn := ⟨encodePacket 0 1 PacketTypeEnum.LOG_MESSAGE [72, 105]⟩ }
            = some (true, s2)
          ∧ s2.getPktType = PacketTypeEnum.LOG_MESSAGE
          ∧ s2.numPktDataBytes = [72, 105].length
          ∧ s2.inBuffer.take s2.numPktDataBytes = [72, 105] :=
  ⟨by decide, by decide, by decide, by decide,
    C1_round_trip 0 1 PacketTypeEnum.LOG_MESSAGE [72, 105]
      (by decide) (by decide) (by decide) (by decide)⟩

/-- C4: destination filtering.  A complete encoder-built (hence
checksum-valid) packet whose destination id differs from the receiving
tool's own id makes `checkForPacketReady` return false, with the packet's
bytes consumed from the input stream so that scanning resumes at the
following byte. -/
theorem C4_destination_filtering (srcId destId recvId : Nat) (t : PacketTypeEnum)
    (payload rest : List Nat)
    (hne : destId ≠ recvId)
    (hlen : payload.length ≤ 1017) :
    ∃ s2 : PacketTool,
      PacketTool.checkForPacketReady
          { mkPacketTool recvId with
              byteIn := ⟨encodePacket srcId destId t payload ++ rest⟩ }
        = some (false, s2)
      ∧ s2.byteIn.data = rest
      ∧ s2.headerValid = false := by
  set m := (payload.length >>> 8) &&& 0xff with hm
  set l := payload.length &&& 0xff with hl
  set cs := checksumByte ((headerBytes destId srcId t payload.length).sum + payload.sum)
    with hcs
  have hdecode : ((m <<< 8) &&& 0xff00) + (l &&& 0xff) = payload.length := by
    rw [hm, hl]
    exact decodeLen _ (by omega)
  have hb : ({ mkPacketTool recvId with
        byteIn := ⟨encodePacket srcId destId t payload ++ rest⟩ } : PacketTool).byteIn.data
      = 0xaa :: 0x55 :: destId :: srcId :: t.value :: m :: l
          :: ((payload ++ [cs]) ++ rest) := by
    show encodePacket srcId destId t payload ++ rest = _
    rw [encodePacket_eq srcId destId t payload hlen]
    simp [headerBytes, hm, hl, hcs]
  have hlb : (payload ++ [cs]).length = ((m <<< 8) &&& 0xff00) + (l &&& 0xff) + 1 := by
    simp [hdecode]
  have hfull := ready_full _ destId srcId t.value m l t (payload ++ [cs]) rest rfl
    (fromValue_value t) hb hlb
  refine ⟨afterReadState
      { mkPacketTool recvId with byteIn := ⟨encodePacket srcId destId t payload ++ rest⟩ }
      destId srcId t.value m l t (payload ++ [cs]) rest, ?_, ?_, ?_⟩
  · rw [hfull, if_pos (by simp [mkPacketTool, hne])]
  · simp [afterReadState]
  · simp [afterReadState]

/-- Witness for C4: a valid packet for device 2 arriving at device 1,
followed by two stray bytes. -/
theorem C4_destination_filtering_witness :
    (2:Nat) ≠ 1 ∧ ([9]:List Nat).length ≤ 1017
      ∧ ∃ s2 : PacketTool,
          PacketTool.checkForPacketReady
              { mkPacketTool 1 with
                  byteIn := ⟨encodePacket 0 2 PacketTypeEnum.NO_PKT [9] ++ [1, 2]⟩ }
            = some (false, s2)
          ∧ s2.byteIn.data = [1, 2]
          ∧ s2.headerValid = false :=
  ⟨by decide, by decide,
    C4_destination_filtering 0 2 1 PacketTypeEnum.NO_PKT [9] [1, 2]
      (by decide) (by decide)⟩

theorem sum_set_add (lst : List Nat) (i v : Nat) (h : i < lst.length) :
    (lst.set i v).sum + lst.getD i 0 = lst.sum + v := by
  induction lst generalizing i with
  | nil => simp at h
  | cons a tl ih =>
    cases i with
    | zero => simp; omega
    | succ j =>
      have := ih j (by simpa using h)
      simp at *
      omega

/-- C5: corruption rejection.  Flipping any single bit of any payload byte
of a valid encoder-built packet addressed to this device makes the 8-bit
sum of the whole packet nonzero, and delivering the corrupted packet
makes `checkForPacketReady` report not-ready (the packet is silently
discarded). -/
theorem C5_corruption_rejection (srcId recvId : Nat) (t : PacketTypeEnum)
    (payload : List Nat) (i k : Nat)
    (hbytes : ∀ b ∈ payload, b ≤ 255)
    (hlen : payload.length ≤ 1017)
    (hi : i < payload.length) (hk : k < 8) :
    (flipPayloadBit (encodePacket srcId recvId t payload) i k).sum % 256 ≠ 0
    ∧ ∃ s2 : PacketTool,
        PacketTool.checkForPacketReady
            { mkPacketTool recvId with
                byteIn := ⟨flipPayloadBit (encodePacket srcId recvId t payload) i k⟩ }
          = some (false, s2) := by
  set m := (payload.length >>> 8) &&& 0xff with hm
  set l := payload.length &&& 0xff with hl
  set cs := checksumByte ((headerBytes recvId srcId t payload.length).sum + payload.sum)
    with hcs
  set b := payload.getD i 0 with hbdef
  set b2 := b ^^^ (1 <<< k) with hb2def
  have hdecode : ((m <<< 8) &&& 0xff00) + (l &&& 0xff) = payload.length := by
    rw [hm, hl]
    exact decodeLen _ (by omega)
  have hpkt : encodePacket srcId recvId t payload
      = headerBytes recvId srcId t payload.length ++ payload ++ [cs] := by
    rw [encodePacket_eq srcId recvId t payload hlen, ← hcs]
  have hhdr7 : (headerBytes recvId srcId t payload.length).length = 7 := by
    simp [headerBytes]
  have hflip : flipPayloadBit (encodePacket srcId recvId t payload) i k
      = headerBytes recvId srcId t payload.length ++ ((payload.set i b2) ++ [cs]) := by
    unfold flipPayloadBit
    rw [hpkt, List.append_assoc]
    rw [List.getD_append_right _ _ _ _ (by omega : (headerBytes recvId srcId t payload.length).length ≤ 7 + i)]
    rw [List.set_append_right _ _ (by omega : (headerBytes recvId srcId t payload.length).length ≤ 7 + i)]
    rw [hhdr7]
    have hidx : 7 + i - 7 = i := by omega
    rw [hidx]
    rw [List.getD_append _ _ _ _ hi, List.set_append_left _ _ hi]
  have hb255 : b ≤ 255 := by
    rw [hbdef, List.getD_eq_getElem payload 0 hi]
    exact hbytes _ (List.getElem_mem hi)
  have hpow : (1 <<< k) < 256 := by
    rw [Nat.shiftLeft_eq, one_mul]
    calc 2 ^ k < 2 ^ 8 := Nat.pow_lt_pow_right (by norm_num) hk
    _ = 256 := by norm_num
  have hb2lt : b2 < 256 := by
    have h8 : (256:Nat) = 2 ^ 8 := by norm_num
    rw [hb2def, h8]
    exact Nat.xor_lt_two_pow (by omega) (by omega)
  have hb2ne : b2 ≠ b := by
    intro heq
    have h0 : b ^^^ (1 <<< k) = b ^^^ 0 := by simpa [hb2def] using heq
    have hz := (Nat.xor_right_inj (n := b)).mp h0
    have hpos : (0:Nat) < 1 <<< k := by
      rw [Nat.shiftLeft_eq, one_mul]
      positivity
    omega
  have hsum1 : (payload.set i b2).sum + b = payload.sum + b2 := sum_set_add payload i b2 hi
  have hvalid := sum_packet_mod ((headerBytes recvId srcId t payload.length).sum + payload.sum)
  rw [← hcs] at hvalid
  have hkey : ((headerBytes recvId srcId t payload.length).sum
      + ((payload.set i b2).sum + cs)) % 256 ≠ 0 := by
    omega
  constructor
  · rw [hflip]
    simp only [List.sum_append, List.sum_cons, List.sum_nil]
    omega
  · have hbytesIn : ({ mkPacketTool recvId with
          byteIn := ⟨flipPayloadBit (encodePacket srcId recvId t payload) i k⟩ }
            : PacketTool).byteIn.data
        = 0xaa :: 0x55 :: recvId :: srcId :: t.value :: m :: l
            :: (((payload.set i b2) ++ [cs]) ++ []) := by
      show flipPayloadBit (encodePacket srcId recvId t payload) i k = _
      rw [hflip]
      simp [headerBytes, hm, hl]
    have hlb : ((payload.set i b2) ++ [cs]).length
        = ((m <<< 8) &&& 0xff00) + (l &&& 0xff) + 1 := by
      simp [List.length_set, hdecode]
    have hfull := ready_full _ recvId srcId t.value m l t ((payload.set i b2) ++ [cs]) [] rfl
      (fromValue_value t) hbytesIn hlb
    refine ⟨afterSumState
        { mkPacketTool recvId with
            byteIn := ⟨flipPayloadBit (encodePacket srcId recvId t payload) i k⟩ }
        recvId srcId t.value m l t ((payload.set i b2) ++ [cs]) [], ?_⟩
    rw [hfull, if_neg (by simp [mkPacketTool])]
    rw [if_pos ?badsum]
    case badsum =>
      rw [and255_eq_mod]
      have hhs := headerBytes_sum recvId srcId t payload.length
      rw [← hm, ← hl] at hhs
      simp only [List.sum_append, List.sum_cons, List.sum_nil] at hkey ⊢
      omega

/-- Witness for C5: flip bit 0 of the only payload byte of a one-byte
packet. -/
theorem C5_corruption_rejection_witness :
    (∀ b ∈ [5], b ≤ 255) ∧ ([5]:List Nat).length ≤ 1017 ∧ 0 < ([5]:List Nat).length
      ∧ 0 < 8
      ∧ ((flipPayloadBit (encodePacket 0 1 PacketTypeEnum.NO_PKT [5]) 0 0).sum % 256 ≠ 0
        ∧ ∃ s2 : PacketTool,
            PacketTool.checkForPacketReady
                { mkPacketTool 1 with
                    byteIn := ⟨flipPayloadBit (encodePacket 0 1 PacketTypeEnum.NO_PKT [5]) 0 0⟩ }
              = some (false, s2)) :=
  ⟨by decide, by decide, by decide, by decide,
    C5_corruption_rejection 0 1 PacketTypeEnum.NO_PKT [5] 0 0
      (by decide) (by decide) (by decide) (by decide)⟩

theorem encodePacket_length (srcId destId : Nat) (t : PacketTypeEnum) (payload : List Nat)
    (hlen : payload.length ≤ 1017) :
    (encodePacket srcId destId t payload).length = payload.length + 8 := by
  rw [encodePacket_eq _ _ _ _ hlen]
  simp [headerBytes]

/-- C3: resynchronization.  With `N ≥ 1` garbage bytes (none equal to
0xAA) in front of a valid packet addressed to this device, the first poll
discards exactly the garbage (one `resync` invocation, `resyncCount`
incremented by exactly one, independent of N) and returns not-ready; the
next poll decodes the trailing packet correctly. -/
theorem C3_resync (srcId recvId : Nat) (t : PacketTypeEnum)
    (garbage payload : List Nat)
    (hg1 : 1 ≤ garbage.length)
    (hgaa : ∀ b ∈ garbage, b ≠ 0xaa)
    (hlen : payload.length ≤ 1017) :
    ∃ s1 s2 : PacketTool,
      PacketTool.checkForPacketReady
          { mkPacketTool recvId with
              byteIn := ⟨garbage ++ encodePacket srcId recvId t payload⟩ }
        = some (false, s1)
      ∧ s1.byteIn.data = encodePacket srcId recvId t payload
      ∧ s1.resyncCount = 1
      ∧ PacketTool.checkForPacketReady s1 = some (true, s2)
      ∧ s2.getPktType = t
      ∧ s2.numPktDataBytes = payload.length
      ∧ s2.inBuffer.take s2.numPktDataBytes = payload := by
  obtain ⟨g0, grest, hg⟩ : ∃ g0 grest, garbage = g0 :: grest := by
    cases garbage with
    | nil => simp at hg1
    | cons a gl => exact ⟨a, gl, rfl⟩
  subst hg
  have hp : encodePacket srcId recvId t payload
      = 0xaa :: (0x55 :: recvId :: srcId :: t.value :: ((payload.length >>> 8) &&& 0xff)
          :: (payload.length &&& 0xff)
          :: (payload
            ++ [checksumByte ((headerBytes recvId srcId t payload.length).sum
                  + payload.sum)])) := by
    rw [encodePacket_eq _ _ _ _ hlen]
    simp [headerBytes]
  have hres : resyncLoop (grest ++ encodePacket srcId recvId t payload)
      = encodePacket srcId recvId t payload := by
    rw [hp]
    exact resyncLoop_no_aa grest _ fun x hx => hgaa x (by simp [hx])
  set recv : PacketTool := { mkPacketTool recvId with
      byteIn := ⟨g0 :: (grest ++ encodePacket srcId recvId t payload)⟩ } with hrecv
  have h7 : ¬ recv.byteIn.available < 7 := by
    simp only [hrecv, CircularBuffer.available, List.length_cons, List.length_append,
      encodePacket_length srcId recvId t payload hlen]
    omega
  have hparse := header_resync recv g0 (grest ++ encodePacket srcId recvId t payload) rfl h7
    (hgaa g0 (by simp))
  have hfirst := ready_parse_no_header recv _ rfl hparse (by simp [hrecv, mkPacketTool])
  have hdecode : ((((payload.length >>> 8) &&& 0xff) <<< 8) &&& 0xff00)
      + ((payload.length &&& 0xff) &&& 0xff) = payload.length :=
    decodeLen _ (by omega)
  set s1 : PacketTool := { recv with
      pktChecksum := 0,
      byteIn := ⟨resyncLoop (grest ++ encodePacket srcId recvId t payload)⟩,
      resyncCount := recv.resyncCount + 1 } with hs1
  have hfirst2 : recv.checkForPacketReady = some (false, s1) := hfirst
  refine ⟨s1,
    afterSumState s1 recvId srcId t.value ((payload.length >>> 8) &&& 0xff)
      (payload.length &&& 0xff) t
      (payload
        ++ [checksumByte ((headerBytes recvId srcId t payload.length).sum + payload.sum)])
      [],
    hfirst2, ?_, ?_, ?_, ?_, ?_, ?_⟩
  · simp [hs1, hres]
  · simp [hs1, hrecv, mkPacketTool]
  · exact ready_accept_fresh _ srcId recvId t payload (by simp [hs1, hrecv, mkPacketTool])
      (by simp [hs1, hrecv, mkPacketTool]) hlen (by simp [hs1, hres])
  · simp [afterSumState, afterReadState, PacketTool.getPktType]
  · simp [afterSumState, afterReadState, hdecode]
  · simp only [afterSumState, afterReadState, hdecode]
    rw [List.append_assoc, take_append_length _ _ _ rfl]

/-- Witness for C3: two garbage bytes `[1, 2]` before a one-byte packet
for device 1. -/
theorem C3_resync_witness :
    1 ≤ ([1, 2]:List Nat).length ∧ (∀ b ∈ [1, 2], b ≠ 0xaa)
      ∧ ([7]:List Nat).length ≤ 1017
      ∧ ∃ s1 s2 : PacketTool,
          PacketTool.checkForPacketReady
              { mkPacketTool 1 with
                  byteIn := ⟨[1, 2] ++ encodePacket 0 1 PacketTypeEnum.GET_DEVICE_INFO [7]⟩ }
            = some (false, s1)
          ∧ s1.byteIn.data = encodePacket 0 1 PacketTypeEnum.GET_DEVICE_INFO [7]
          ∧ s1.resyncCount = 1
          ∧ PacketTool.checkForPacketReady s1 = some (true, s2)
          ∧ s2.getPktType = PacketTypeEnum.GET_DEVICE_INFO
          ∧ s2.numPktDataBytes = [7].length
          ∧ s2.inBuffer.take s2.numPktDataBytes = [7] :=
  ⟨by decide, by decide, by decide,
    C3_resync 0 1 PacketTypeEnum.GET_DEVICE_INFO [1, 2] [7]
      (by decide) (by decide) (by decide)⟩

theorem pollSeq_append (s : PacketTool) (l1 l2 : List Nat) :
    pollSeq s (l1 ++ l2) =
      match pollSeq s l1 with
      | none => none
      | some (rs, s1) =>
        match pollSeq s1 l2 with
        | none => none
        | some (rs2, s2) => some (rs ++ rs2, s2) := by
  induction l1 generalizing s with
  | nil =>
    cases h : pollSeq s l2 with
    | none => simp [pollSeq, h]
    | some p => simp [pollSeq, h]
  | cons b rest ih =>
    show pollSeq s (b :: (rest ++ l2)) = _
    cases h : (feedByte s b).checkForPacketReady with
    | none => simp [pollSeq, h]
    | some p =>
      obtain ⟨r, s1⟩ := p
      rw [pollSeq, h]
      simp only
      rw [ih s1, pollSeq, h]
      simp only
      cases h2 : pollSeq s1 rest with
      | none => simp
      | some q =>
        obtain ⟨rs, s2⟩ := q
        cases h3 : pollSeq s2 l2 with
        | none => simp [h3]
        | some w =>
          obtain ⟨rs2, s3⟩ := w
          simp [h3]

theorem take_succ_getD (l : List Nat) (j : Nat) (h : j < l.length) :
    l.take j ++ [l.getD j 0] = l.take (j + 1) := by
  rw [List.take_succ, List.getElem?_eq_getElem h, List.getD_eq_getElem l 0 h]
  rfl

theorem c6_step (srcId recvId : Nat) (t : PacketTypeEnum) (payload : List Nat)
    (hlen : payload.length ≤ 1017) (j : Nat) (hj : j < 7 + payload.length) :
    (feedByte (c6State recvId srcId t payload j)
        ((encodePacket srcId recvId t payload).getD j 0)).checkForPacketReady
      = some (false, c6State recvId srcId t payload (j + 1)) := by
  set m := (payload.length >>> 8) &&& 0xff with hm
  set l := payload.length &&& 0xff with hl
  set cs := checksumByte ((headerBytes recvId srcId t payload.length).sum + payload.sum)
    with hcs
  have hdecode : ((m <<< 8) &&& 0xff00) + (l &&& 0xff) = payload.length := by
    rw [hm, hl]
    exact decodeLen _ (by omega)
  have hhdr7 : (headerBytes recvId srcId t payload.length).length = 7 := by
    simp [headerBytes]
  have hpkt : encodePacket srcId recvId t payload
      = headerBytes recvId srcId t payload.length ++ (payload ++ [cs]) := by
    rw [encodePacket_eq _ _ _ _ hlen, ← hcs, List.append_assoc]
  have hpktlen : (encodePacket srcId recvId t payload).length = payload.length + 8 :=
    encodePacket_length srcId recvId t payload hlen
  by_cases hj7 : j + 1 < 7
  · have hc : c6State recvId srcId t payload j
        = { mkPacketTool recvId with
            byteIn := ⟨(encodePacket srcId recvId t payload).take j⟩ } := by
      rw [c6State, if_pos (by omega)]
    have hc1 : c6State recvId srcId t payload (j + 1)
        = { mkPacketTool recvId with
            byteIn := ⟨(encodePacket srcId recvId t payload).take (j + 1)⟩ } := by
      rw [c6State, if_pos hj7]
    rw [hc, hc1]
    have hfeed : feedByte
        ({ mkPacketTool recvId with
            byteIn := ⟨(encodePacket srcId recvId t payload).take j⟩ } : PacketTool)
        ((encodePacket srcId recvId t payload).getD j 0)
        = { mkPacketTool recvId with
            byteIn := ⟨(encodePacket srcId recvId t payload).take (j + 1)⟩ } := by
      simp only [feedByte]
      rw [take_succ_getD _ _ (by omega)]
    rw [hfeed]
    have hav : ({ mkPacketTool recvId with
        byteIn := ⟨(encodePacket srcId recvId t payload).take (j + 1)⟩ } :
          PacketTool).byteIn.available < 7 := by
      simp only [CircularBuffer.available, List.length_take]
      omega
    exact ready_parse_no_header _ _ rfl (header_short _ hav) rfl
  · by_cases hj7b : j + 1 = 7
    · have hj6 : j = 6 := by omega
      subst hj6
      have hc : c6State recvId srcId t payload 6
          = { mkPacketTool recvId with
              byteIn := ⟨(encodePacket srcId recvId t payload).take 6⟩ } := by
        rw [c6State, if_pos (by omega)]
      rw [hc]
      have hfeed : feedByte
          ({ mkPacketTool recvId with
              byteIn := ⟨(encodePacket srcId recvId t payload).take 6⟩ } : PacketTool)
          ((encodePacket srcId recvId t payload).getD 6 0)
          = { mkPacketTool recvId with
              byteIn := ⟨(encodePacket srcId recvId t payload).take 7⟩ } := by
        simp only [feedByte]
        rw [take_succ_getD _ _ (by omega)]
      rw [hfeed]
      have h7 : (encodePacket srcId recvId t payload).take 7
          = 0xaa :: 0x55 :: recvId :: srcId :: t.value :: m :: l :: [] := by
        rw [hpkt, ← hhdr7, List.take_left]
        simp [headerBytes, hm, hl]
      have hparse := header_parse
        ({ mkPacketTool recvId with
            byteIn := ⟨(encodePacket srcId recvId t payload).take 7⟩ } : PacketTool)
        recvId srcId t.value m l t [] (by simpa using h7) (fromValue_value t)
      rw [ready_parse_then_body _ _ rfl hparse rfl]
      rw [body_not_enough _ (by
        simp only [CircularBuffer.available, List.length_nil]
        omega)]
      rw [c6State, if_neg (by omega)]
      rw [hdecode]
      rfl
    · have hjge : 7 ≤ j := by omega
      have hc : c6State recvId srcId t payload j
          = { mkPacketTool recvId with
              byteIn := ⟨(payload ++ [cs]).take (j - 7)⟩,
              headerValid := true,
              pktChecksum := 0xaa + 0x55 + recvId + srcId + t.value + m + l,
              destDeviceIdentifierFromReceivedPkt := recvId,
              sourceDeviceIdentifierFromReceivedPkt := srcId,
              pktType := t,
              numPktDataBytes := payload.length,
              numDataBytesPlusChecksumByte := payload.length + 1 } := by
        rw [c6State, if_neg (by omega)]
      have hc1 : c6State recvId srcId t payload (j + 1)
          = { mkPacketTool recvId with
              byteIn := ⟨(payload ++ [cs]).take (j + 1 - 7)⟩,
              headerValid := true,
              pktChecksum := 0xaa + 0x55 + recvId + srcId + t.value + m + l,
              destDeviceIdentifierFromReceivedPkt := recvId,
              sourceDeviceIdentifierFromReceivedPkt := srcId,
              pktType := t,
              numPktDataBytes := payload.length,
              numDataBytesPlusChecksumByte := payload.length + 1 } := by
        rw [c6State, if_neg (by omega)]
      have hgd : (encodePacket srcId recvId t payload).getD j 0
          = (payload ++ [cs]).getD (j - 7) 0 := by
        rw [hpkt, List.getD_append_right _ _ _ _ (by omega), hhdr7]
      have hbl : (payload ++ [cs]).length = payload.length + 1 := by simp
      have htk : (payload ++ [cs]).take (j - 7) ++ [(payload ++ [cs]).getD (j - 7) 0]
          = (payload ++ [cs]).take (j + 1 - 7) := by
        rw [take_succ_getD _ _ (by omega)]
        congr 1
        omega
      rw [hc, hc1]
      have hfeed : feedByte
          ({ mkPacketTool recvId with
              byteIn := ⟨(payload ++ [cs]).take (j - 7)⟩,
              headerValid := true,
              pktChecksum := 0xaa + 0x55 + recvId + srcId + t.value + m + l,
              destDeviceIdentifierFromReceivedPkt := recvId,
              sourceDeviceIdentifierFromReceivedPkt := srcId,
              pktType := t,
              numPktDataBytes := payload.length,
              numDataBytesPlusChecksumByte := payload.length + 1 } : PacketTool)
          ((encodePacket srcId recvId t payload).getD j 0)
          = { mkPacketTool recvId with
              byteIn := ⟨(payload ++ [cs]).take (j + 1 - 7)⟩,
              headerValid := true,
              pktChecksum := 0xaa + 0x55 + recvId + srcId + t.value + m + l,
              destDeviceIdentifierFromReceivedPkt := recvId,
              sourceDeviceIdentifierFromReceivedPkt := srcId,
              pktType := t,
              numPktDataBytes := payload.length,
              numDataBytesPlusChecksumByte := payload.length + 1 } := by
        simp only [feedByte]
        rw [hgd, htk]
      rw [hfeed]
      rw [ready_with_header _ rfl]
      rw [body_not_enough _ (by
        simp only [CircularBuffer.available, List.length_take, hbl]
        omega)]

theorem c6_take_polls (srcId recvId : Nat) (t : PacketTypeEnum) (payload : List Nat)
    (hlen : payload.length ≤ 1017) :
    ∀ j, j ≤ 7 + payload.length →
      pollSeq (mkPacketTool recvId) ((encodePacket srcId recvId t payload).take j)
        = some (List.replicate j false, c6State recvId srcId t payload j) := by
  intro j
  induction j with
  | zero =>
    intro _
    have h0 : c6State recvId srcId t payload 0 = mkPacketTool recvId := by
      rw [c6State, if_pos (by omega)]
      rfl
    rw [h0]
    simp [pollSeq]
  | succ j ih =>
    intro hj1
    have hstep := c6_step srcId recvId t payload hlen j (by omega)
    have htake : (encodePacket srcId recvId t payload).take (j + 1)
        = (encodePacket srcId recvId t payload).take j
          ++ [(encodePacket srcId recvId t payload).getD j 0] := by
      rw [take_succ_getD _ _ (by
        rw [encodePacket_length srcId recvId t payload hlen]
        omega)]
    rw [htake, pollSeq_append, ih (by omega)]
    have hone : pollSeq (c6State recvId srcId t payload j)
        [(encodePacket srcId recvId t payload).getD j 0]
        = some ([false], c6State recvId srcId t payload (j + 1)) := by
      rw [pollSeq, hstep]
      simp [pollSeq]
    simp only [hone]
    rw [← List.replicate_succ' j false]

/-- C6: partial delivery.  Feeding a valid encoded packet's bytes to a
fresh tool one byte at a time with one poll per byte: every poll before
the final byte reports not-ready while leaving the state exactly as
characterised by `c6State` (no byte discarded, `resyncCount` still 0, and
from the 7th byte on the parsed header fields cached unchanged); the poll
after the final byte reports ready with the correctly decoded type and
payload. -/
theorem C6_partial_delivery (srcId recvId : Nat) (t : PacketTypeEnum)
    (payload : List Nat) (hlen : payload.length ≤ 1017) :
    (∀ j, j ≤ 7 + payload.length →
      pollSeq (mkPacketTool recvId) ((encodePacket srcId recvId t payload).take j)
        = some (List.replicate j false, c6State recvId srcId t payload j)
      ∧ (c6State recvId srcId t payload j).resyncCount = 0
      ∧ (7 ≤ j →
          (c6State recvId srcId t payload j).headerValid = true
          ∧ (c6State recvId srcId t payload j).numPktDataBytes = payload.length
          ∧ (c6State recvId srcId t payload j).destDeviceIdentifierFromReceivedPkt = recvId
          ∧ (c6State recvId srcId t payload j).pktType = t))
    ∧ pollSeq (mkPacketTool recvId) (encodePacket srcId recvId t payload)
        = some (List.replicate (7 + payload.length) false ++ [true],
            c6FinalState recvId srcId t payload)
    ∧ (c6FinalState recvId srcId t payload).getPktType = t
    ∧ (c6FinalState recvId srcId t payload).numPktDataBytes = payload.length
    ∧ (c6FinalState recvId srcId t payload).inBuffer.take payload.length = payload := by
  set m := (payload.length >>> 8) &&& 0xff with hm
  set l := payload.length &&& 0xff with hl
  set cs := checksumByte ((headerBytes recvId srcId t payload.length).sum + payload.sum)
    with hcs
  have hpktlen : (encodePacket srcId recvId t payload).length = payload.length + 8 :=
    encodePacket_length srcId recvId t payload hlen
  have hpkt : encodePacket srcId recvId t payload
      = headerBytes recvId srcId t payload.length ++ (payload ++ [cs]) := by
    rw [encodePacket_eq _ _ _ _ hlen, ← hcs, List.append_assoc]
  have hhdr7 : (headerBytes recvId srcId t payload.length).length = 7 := by
    simp [headerBytes]
  refine ⟨?_, ?_, ?_, ?_, ?_⟩
  · intro j hj
    refine ⟨c6_take_polls srcId recvId t payload hlen j hj, ?_, ?_⟩
    · rw [c6State]
      split <;> rfl
    · intro hj7
      rw [c6State, if_neg (by omega)]
      exact ⟨rfl, rfl, rfl, rfl⟩
  · have hsplit : encodePacket srcId recvId t payload
        = (encodePacket srcId recvId t payload).take (7 + payload.length)
          ++ [(encodePacket srcId recvId t payload).getD (7 + payload.length) 0] := by
      rw [take_succ_getD _ _ (by omega)]
      rw [List.take_of_length_le (by omega)]
    have hgd : (encodePacket srcId recvId t payload).getD (7 + payload.length) 0 = cs := by
      rw [hpkt, List.getD_append_right _ _ _ _ (by omega), hhdr7]
      rw [List.getD_append_right _ _ _ _ (by omega)]
      simp
    have hc : c6State recvId srcId t payload (7 + payload.length)
        = { mkPacketTool recvId with
            byteIn := ⟨payload⟩,
            headerValid := true,
            pktChecksum := 0xaa + 0x55 + recvId + srcId + t.value + m + l,
            destDeviceIdentifierFromReceivedPkt := recvId,
            sourceDeviceIdentifierFromReceivedPkt := srcId,
            pktType := t,
            numPktDataBytes := payload.length,
            numDataBytesPlusChecksumByte := payload.length + 1 } := by
      rw [c6State, if_neg (by omega)]
      have htk : (payload ++ [cs]).take (7 + payload.length - 7) = payload := by
        rw [show 7 + payload.length - 7 = payload.length from by omega]
        exact take_append_length _ _ _ rfl
      rw [htk]
    have hfin : pollSeq (c6State recvId srcId t payload (7 + payload.length))
        [(encodePacket srcId recvId t payload).getD (7 + payload.length) 0]
        = some ([true], c6FinalState recvId srcId t payload) := by
      rw [hgd, hc, pollSeq]
      have hfeed : feedByte
          ({ mkPacketTool recvId with
              byteIn := ⟨payload⟩,
              headerValid := true,
              pktChecksum := 0xaa + 0x55 + recvId + srcId + t.value + m + l,
              destDeviceIdentifierFromReceivedPkt := recvId,
              sourceDeviceIdentifierFromReceivedPkt := srcId,
              pktType := t,
              numPktDataBytes := payload.length,
              numDataBytesPlusChecksumByte := payload.length + 1 } : PacketTool) cs
          = { mkPacketTool recvId with
              byteIn := ⟨payload ++ [cs]⟩,
              headerValid := true,
              pktChecksum := 0xaa + 0x55 + recvId + srcId + t.value + m + l,
              destDeviceIdentifierFromReceivedPkt := recvId,
              sourceDeviceIdentifierFromReceivedPkt := srcId,
              pktType := t,
              numPktDataBytes := payload.length,
              numDataBytesPlusChecksumByte := payload.length + 1 } := rfl
      rw [hfeed, ready_with_header _ rfl]
      rw [body_run _ (payload ++ [cs]) [] (by simp) (by simp)]
      have hs := sum_packet_mod ((headerBytes recvId srcId t payload.length).sum + payload.sum)
      rw [← hcs, headerBytes_sum, ← hm, ← hl] at hs
      rw [if_neg (by simp [mkPacketTool]), if_neg (by simp [and255_eq_mod]; omega)]
      simp only [pollSeq]
      rfl
    nth_rewrite 1 [hsplit]
    rw [pollSeq_append, c6_take_polls srcId recvId t payload hlen (7 + payload.length) le_rfl]
    simp only [hfin]
  · rfl
  · rfl
  · rw [c6FinalState]
    simp only
    rw [List.append_assoc, take_append_length _ _ _ rfl]

/-- Witness for C6: the two-byte payload `[3, 4]` delivered byte by byte
to device 1. -/
theorem C6_partial_delivery_witness :
    ([3, 4] : List Nat).length ≤ 1017
      ∧ ((∀ j, j ≤ 7 + ([3, 4]:List Nat).length →
          pollSeq (mkPacketTool 1)
              ((encodePacket 0 1 PacketTypeEnum.HAND_GESTURE_DATA [3, 4]).take j)
            = some (List.replicate j false, c6State 1 0 PacketTypeEnum.HAND_GESTURE_DATA [3, 4] j)
          ∧ (c6State 1 0 PacketTypeEnum.HAND_GESTURE_DATA [3, 4] j).resyncCount = 0
          ∧ (7 ≤ j →
              (c6State 1 0 PacketTypeEnum.HAND_GESTURE_DATA [3, 4] j).headerValid = true
              ∧ (c6State 1 0 PacketTypeEnum.HAND_GESTURE_DATA [3, 4] j).numPktDataBytes
                  = ([3, 4]:List Nat).length
              ∧ (c6State 1 0 PacketTypeEnum.HAND_GESTURE_DATA [3, 4]
                  j).destDeviceIdentifierFromReceivedPkt = 1
              ∧ (c6State 1 0 PacketTypeEnum.HAND_GESTURE_DATA [3, 4] j).pktType
                  = PacketTypeEnum.HAND_GESTURE_DATA))
        ∧ pollSeq (mkPacketTool 1) (encodePacket 0 1 PacketTypeEnum.HAND_GESTURE_DATA [3, 4])
            = some (List.replicate (7 + ([3, 4]:List Nat).length) false ++ [true],
                c6FinalState 1 0 PacketTypeEnum.HAND_GESTURE_DATA [3, 4])
        ∧ (c6FinalState 1 0 PacketTypeEnum.HAND_GESTURE_DATA [3, 4]).getPktType
            = PacketTypeEnum.HAND_GESTURE_DATA
        ∧ (c6FinalState 1 0 PacketTypeEnum.HAND_GESTURE_DATA [3, 4]).numPktDataBytes
            = ([3, 4]:List Nat).length
        ∧ (c6FinalState 1 0 PacketTypeEnum.HAND_GESTURE_DATA [3, 4]).inBuffer.take
            ([3, 4]:List Nat).length = [3, 4]) :=
  ⟨by decide, C6_partial_delivery 0 1 PacketTypeEnum.HAND_GESTURE_DATA [3, 4] (by decide)⟩

/-- C8: sign extension.  For every `pBits ≥ 1` and every
`0 ≤ pValue < 2^pBits`, `signExtend` returns `pValue` itself when bit
`pBits - 1` is clear and `pValue - 2^pBits` when it is set — the unique
integer congruent to `pValue` modulo `2^pBits` in
`[-2^(pBits-1), 2^(pBits-1))` — as a pure function independent of any
machine integer width. -/
theorem C8_sign_extension (pValue pBits : Nat) (h1 : 1 ≤ pBits)
    (h2 : pValue < 2 ^ pBits) :
    (pValue.testBit (pBits - 1) = false →
        PacketTool.signExtend pValue pBits = (pValue : Int))
    ∧ (pValue.testBit (pBits - 1) = true →
        PacketTool.signExtend pValue pBits = (pValue : Int) - 2 ^ pBits)
    ∧ -(2 ^ (pBits - 1) : Int) ≤ PacketTool.signExtend pValue pBits
    ∧ PacketTool.signExtend pValue pBits < 2 ^ (pBits - 1)
    ∧ PacketTool.signExtend pValue pBits % (2 ^ pBits : Int)
        = (pValue : Int) % (2 ^ pBits : Int) := by
  have hq : (1:Nat) <<< (pBits - 1) = 2 ^ (pBits - 1) := by
    rw [Nat.shiftLeft_eq, one_mul]
  have hpow : (2:Nat) ^ pBits = 2 * 2 ^ (pBits - 1) := by
    conv_lhs => rw [show pBits = (pBits - 1) + 1 from by omega]
    rw [pow_succ]
    ring
  have hqpos : 0 < 2 ^ (pBits - 1) := Nat.two_pow_pos _
  set dq := pValue / 2 ^ (pBits - 1) with hdq
  have hmlt : pValue % 2 ^ (pBits - 1) < 2 ^ (pBits - 1) := Nat.mod_lt _ hqpos
  have hdiv : dq < 2 := by
    rw [hdq, Nat.div_lt_iff_lt_mul hqpos]
    omega
  have hse : PacketTool.signExtend pValue pBits
      = ((pValue % 2 ^ (pBits - 1) : Nat) : Int)
        - (((pValue.testBit (pBits - 1)).toNat * 2 ^ (pBits - 1) : Nat) : Int) := by
    unfold PacketTool.signExtend
    simp only [hq, Nat.and_pow_two_sub_one_eq_mod, Nat.and_two_pow]
  have htb : pValue.testBit (pBits - 1) = decide (dq % 2 = 1) :=
    Nat.testBit_to_div_mod
  have hpowZ : ((2:Int) ^ pBits) = 2 * 2 ^ (pBits - 1) := by
    exact_mod_cast congrArg (Nat.cast (R := Int)) hpow
  have hcastq : ((2 ^ (pBits - 1) : Nat) : Int) = (2:Int) ^ (pBits - 1) := by
    push_cast
    ring
  have hqposZ : (0:Int) < 2 ^ (pBits - 1) := by positivity
  have hvnn : (0:Int) ≤ (pValue : Int) := Int.natCast_nonneg _
  set Q : Int := (2:Int) ^ (pBits - 1) with hQdef
  set P : Int := (2:Int) ^ pBits with hPdef
  clear_value dq
  by_cases ht : pValue.testBit (pBits - 1) = true
  · have hd1 : dq = 1 := by
      rw [htb] at ht
      have hm2 := of_decide_eq_true ht
      omega
    have hmod := Nat.div_add_mod pValue (2 ^ (pBits - 1))
    rw [← hdq, hd1, mul_one] at hmod
    have hge : 2 ^ (pBits - 1) ≤ pValue := by omega
    have hval : PacketTool.signExtend pValue pBits = (pValue : Int) - P := by
      rw [hse, ht]
      have hmodeq : pValue % 2 ^ (pBits - 1) = pValue - 2 ^ (pBits - 1) := by omega
      rw [hmodeq, Nat.cast_sub hge]
      simp only [Bool.toNat_true, one_mul]
      rw [hcastq, hpowZ]
      ring
    have hgeZ : Q ≤ (pValue : Int) := by
      rw [← hcastq]
      exact_mod_cast hge
    refine ⟨by simp [ht], fun _ => hval, ?_, ?_, ?_⟩
    · rw [hval]
      linarith [hgeZ, hpowZ]
    · rw [hval]
      have hltZ : (pValue : Int) < P := by
        rw [hPdef]
        exact_mod_cast h2
      linarith [hltZ, hpowZ, hqposZ]
    · rw [hval, Int.sub_emod, Int.emod_self, sub_zero,
        Int.emod_emod_of_dvd _ dvd_rfl]
  · have htf : pValue.testBit (pBits - 1) = false := by
      simpa using ht
    have hd0 : dq = 0 := by
      rw [htb] at htf
      have hm2 := of_decide_eq_false htf
      omega
    have hmod := Nat.div_add_mod pValue (2 ^ (pBits - 1))
    rw [← hdq, hd0, mul_zero, zero_add] at hmod
    have hlt : pValue < 2 ^ (pBits - 1) := by omega
    have hval : PacketTool.signExtend pValue pBits = (pValue : Int) := by
      rw [hse, htf]
      simp [Nat.mod_eq_of_lt hlt]
    have hltZ : (pValue : Int) < Q := by
      rw [← hcastq]
      exact_mod_cast hlt
    refine ⟨fun _ => hval, by simp [htf], ?_, ?_, ?_⟩
    · rw [hval]
      linarith [hvnn, hqposZ]
    · rw [hval]
      exact hltZ
    · rw [hval]

/-- Witness for C8: the 16-bit value 0x8001 (sign bit set). -/
theorem C8_sign_extension_witness :
    1 ≤ 16 ∧ (0x8001:Nat) < 2 ^ 16
      ∧ ((Nat.testBit 0x8001 (16 - 1) = false →
            PacketTool.signExtend 0x8001 16 = ((0x8001 : Nat) : Int))
        ∧ (Nat.testBit 0x8001 (16 - 1) = true →
            PacketTool.signExtend 0x8001 16 = ((0x8001 : Nat) : Int) - 2 ^ 16)
        ∧ -(2 ^ (16 - 1) : Int) ≤ PacketTool.signExtend 0x8001 16
        ∧ PacketTool.signExtend 0x8001 16 < 2 ^ (16 - 1)
        ∧ PacketTool.signExtend 0x8001 16 % (2 ^ 16 : Int)
            = ((0x8001 : Nat) : Int) % (2 ^ 16 : Int)) :=
  ⟨by decide, by decide, C8_sign_extension 0x8001 16 (by decide) (by decide)⟩

theorem be16_bytes (b c : Nat) (hb : b ≤ 255) (hc : c ≤ 255) :
    ((b <<< 8) &&& 0xff00) + (c &&& 0xff) = b * 256 + c := by
  have h1 : (0xff00:Nat) = 0xff <<< 8 := by decide
  rw [h1, shiftLeft_and_shiftLeft, and255_eq_mod, and255_eq_mod,
    Nat.mod_eq_of_lt (by omega), Nat.mod_eq_of_lt (by omega), Nat.shiftLeft_eq]

/-- C9: duplex integer decode.  With four bytes readable at `pIndex`,
`parseDuplexIntegerFromPacket` returns the sign-extended 16-bit
big-endian value of the first two bytes, advances the index by exactly 4
in every case, and reports PACKET_VALID precisely when the value equals
the sign-extended copy formed from the next two bytes (otherwise
DUPLEX_MATCH_ERROR). -/
theorem C9_duplex_decode (s : PacketTool) (pIndex : Nat)
    (h4 : pIndex + 4 ≤ s.inBuffer.length)
    (hb0 : s.inBuffer.getD pIndex 0 ≤ 255)
    (hb1 : s.inBuffer.getD (pIndex + 1) 0 ≤ 255)
    (hb2 : s.inBuffer.getD (pIndex + 2) 0 ≤ 255)
    (hb3 : s.inBuffer.getD (pIndex + 3) 0 ≤ 255) :
    (s.parseDuplexIntegerFromPacket pIndex).2.1 = pIndex + 4
    ∧ (s.parseDuplexIntegerFromPacket pIndex).2.2
        = PacketTool.signExtend
            (s.inBuffer.getD pIndex 0 * 256 + s.inBuffer.getD (pIndex + 1) 0) 16
    ∧ ((s.parseDuplexIntegerFromPacket pIndex).1 = PacketStatusEnum.PACKET_VALID
        ↔ PacketTool.signExtend
            (s.inBuffer.getD pIndex 0 * 256 + s.inBuffer.getD (pIndex + 1) 0) 16
          = PacketTool.signExtend
              (s.inBuffer.getD (pIndex + 2) 0 * 256 + s.inBuffer.getD (pIndex + 3) 0) 16) := by
  unfold PacketTool.parseDuplexIntegerFromPacket
  simp only [be16_bytes _ _ hb0 hb1, be16_bytes _ _ hb2 hb3]
  refine ⟨by simp, by simp, ?_⟩
  by_cases heq : PacketTool.signExtend
      (s.inBuffer.getD pIndex 0 * 256 + s.inBuffer.getD (pIndex + 1) 0) 16
    = PacketTool.signExtend
      (s.inBuffer.getD (pIndex + 2) 0 * 256 + s.inBuffer.getD (pIndex + 3) 0) 16
  · simp [heq]
  · simp [heq]

/-- Witness for C9: a buffer whose duplex field at index 0 matches
(`[1, 2, 1, 2, 9]`). -/
theorem C9_duplex_decode_witness :
    (let s : PacketTool := { mkPacketTool 0 with inBuffer := [1, 2, 1, 2, 9] }
     0 + 4 ≤ s.inBuffer.length
      ∧ s.inBuffer.getD 0 0 ≤ 255 ∧ s.inBuffer.getD 1 0 ≤ 255
      ∧ s.inBuffer.getD 2 0 ≤ 255 ∧ s.inBuffer.getD 3 0 ≤ 255
      ∧ ((s.parseDuplexIntegerFromPacket 0).2.1 = 0 + 4
        ∧ (s.parseDuplexIntegerFromPacket 0).2.2
            = PacketTool.signExtend (s.inBuffer.getD 0 0 * 256 + s.inBuffer.getD 1 0) 16
        ∧ ((s.parseDuplexIntegerFromPacket 0).1 = PacketStatusEnum.PACKET_VALID
            ↔ PacketTool.signExtend (s.inBuffer.getD 0 0 * 256 + s.inBuffer.getD 1 0) 16
              = PacketTool.signExtend
                  (s.inBuffer.getD 2 0 * 256 + s.inBuffer.getD 3 0) 16))) :=
  ⟨by decide, by decide, by decide, by decide, by decide,
    C9_duplex_decode { mkPacketTool 0 with inBuffer := [1, 2, 1, 2, 9] } 0
      (by decide) (by decide) (by decide) (by decide) (by decide)⟩

/-- C10 (implicit): `calculateChecksumAndStoreInBuffer` returns
`pLastIndex + 1` unconditionally, and when the sum of the preceding bytes
is divisible by 256 the computed value 0x100 does not fit the byte slot
(`OverflowError`, caught and swallowed by the source), so the buffer —
including whatever stale byte sat at the checksum position — is left
completely unchanged while the full packet length is still reported to
the caller. -/
theorem C10_checksum_overflow_swallowed (s : PacketTool) (pLastIndex : Nat)
    (hidx : pLastIndex < s.outBuffer.length) :
    (s.calculateChecksumAndStoreInBuffer pLastIndex).2 = pLastIndex + 1
    ∧ ((s.outBuffer.take pLastIndex).sum % 256 = 0 →
        (s.calculateChecksumAndStoreInBuffer pLastIndex).1.outBuffer = s.outBuffer) := by
  unfold PacketTool.calculateChecksumAndStoreInBuffer
  refine ⟨rfl, fun hz => ?_⟩
  simp only [and255_eq_mod, hz]
  rw [if_neg (by norm_num)]

set_option maxRecDepth 40000 in
/-- Witness for C10: a fresh tool (all-zero out buffer, so the take-sum is
0, divisible by 256) at index 3. -/
theorem C10_checksum_overflow_swallowed_witness :
    3 < (mkPacketTool 0).outBuffer.length
      ∧ (((mkPacketTool 0).calculateChecksumAndStoreInBuffer 3).2 = 3 + 1
        ∧ (((mkPacketTool 0).outBuffer.take 3).sum % 256 = 0 →
            ((mkPacketTool 0).calculateChecksumAndStoreInBuffer 3).1.outBuffer
              = (mkPacketTool 0).outBuffer)) :=
  ⟨by decide, C10_checksum_overflow_swallowed (mkPacketTool 0) 3 (by decide)⟩

set_option maxRecDepth 40000 in
set_option maxHeartbeats 2000000 in
/-- C2 fails on the code: two packets built back to back on one tool.  The
first (`prepareHeader 1 NO_PKT 1`, payload byte 7, checksum at index 8)
leaves the stale byte 7 at index 7.  The second packet
(`prepareHeader 1 NO_PKT 0`, empty payload) has header sum 0xaa + 0x55 +
1 = 0x100 ≡ 0 (mod 256), so storing the checksum raises the swallowed
`OverflowError` and index 7 keeps the stale 7: the transmitted packet
sums to 7 ≢ 0 (mod 256) and its checksum byte 7 differs from the
specified `(0x100 − sum mod 256) mod 256 = 0`. -/
theorem C2_checksum_invariant_fails_on_stale_byte :
    (let s0 := mkPacketTool 0
     let h1 := s0.prepareHeader 1 PacketTypeEnum.NO_PKT 1
     let s1 := { h1.1 with outBuffer := writeBytesAt h1.1.outBuffer h1.2 [7] }
     let r1 := s1.calculateChecksumAndStoreInBuffer (h1.2 + 1)
     let h2 := r1.1.prepareHeader 1 PacketTypeEnum.NO_PKT 0
     let r2 := h2.1.calculateChecksumAndStoreInBuffer h2.2
     (r2.1.outBuffer.take r2.2).sum % 256 = 7
       ∧ r2.1.outBuffer.getD h2.2 0 = 7
       ∧ (0x100 - (r2.1.outBuffer.take h2.2).sum % 256) % 256 = 0) := by
  decide

theorem sendShortsInner_zero_run : ∀ (k : Nat) (buf : List Nat) (x nd : Nat),
    buf.length = 1025 → x % 2 = 1 → x + 2 * k < 1023 →
    ∃ buf2 : List Nat, sendShortsInner buf x nd (List.replicate k 0)
        = some (buf2, x + 2 * k, nd + 2 * k) ∧ buf2.length = 1025
  | 0, buf, x, nd, hlen, hodd, hslack => ⟨buf, by simp [sendShortsInner], hlen⟩
  | (k+1), buf, x, nd, hlen, hodd, hslack => by
    obtain ⟨buf2, heq, hlen2⟩ := sendShortsInner_zero_run k
      ((buf.set x (pyHighByte 0)).set (x + 1) (pyLowByte 0)) (x + 2) (nd + 2)
      (by simp [hlen]) (by omega) (by omega)
    refine ⟨buf2, ?_, hlen2⟩
    rw [List.replicate_succ]
    simp only [sendShortsInner]
    rw [if_pos (by omega)]
    rw [if_neg (by simp only [OUT_BUFFER_SIZE]; omega)]
    rw [if_pos (by simp only [List.length_set]; omega)]
    rw [if_neg (by simp only [OUT_BUFFER_SIZE]; omega)]
    have harith1 : x + 2 + 2 * k = x + 2 * (k + 1) := by ring
    have harith2 : nd + 2 + 2 * k = nd + 2 * (k + 1) := by ring
    rw [heq, harith1, harith2]

theorem sendShortsInner_zero_break : ∀ (k : Nat) (buf : List Nat) (x nd : Nat),
    buf.length = 1025 → x % 2 = 1 → 1 ≤ k → x + 2 * k = 1023 →
    ∃ buf2 : List Nat, sendShortsInner buf x nd (List.replicate k 0)
        = some (buf2, 1023, nd + 2 * k) ∧ buf2.length = 1025
  | 0, _, _, _, _, _, hk, _ => by omega
  | 1, buf, x, nd, hlen, hodd, hk, hhit => by
    refine ⟨(buf.set x (pyHighByte 0)).set (x + 1) (pyLowByte 0), ?_, by simp [hlen]⟩
    simp only [List.replicate_succ, List.replicate_zero, sendShortsInner]
    rw [if_pos (by omega)]
    rw [if_neg (by simp only [OUT_BUFFER_SIZE]; omega)]
    rw [if_pos (by simp only [List.length_set]; omega)]
    rw [if_pos (by simp only [OUT_BUFFER_SIZE]; omega)]
    have hx2 : x + 2 = 1023 := by omega
    rw [hx2]
  | (k+2), buf, x, nd, hlen, hodd, hk, hhit => by
    obtain ⟨buf2, heq, hlen2⟩ := sendShortsInner_zero_break (k + 1)
      ((buf.set x (pyHighByte 0)).set (x + 1) (pyLowByte 0)) (x + 2) (nd + 2)
      (by simp [hlen]) (by omega) (by omega) (by omega)
    refine ⟨buf2, ?_, hlen2⟩
    rw [List.replicate_succ]
    set tail := List.replicate (k + 1) (0 : Int) with htail
    clear_value tail
    simp only [sendShortsInner]
    rw [if_pos (by omega)]
    rw [if_neg (by simp only [OUT_BUFFER_SIZE]; omega)]
    rw [if_pos (by simp only [List.length_set]; omega)]
    rw [if_neg (by simp only [OUT_BUFFER_SIZE]; omega)]
    have harith2 : nd + 2 + 2 * (k + 1) = nd + 2 * (k + 2) := by ring
    rw [heq, harith2]

theorem sendShortsInner_crash_at_1023 (buf : List Nat) (nd : Nat)
    (hlen : buf.length = 1025) :
    sendShortsInner buf 1023 nd [0, 0] = none := by
  simp only [sendShortsInner]
  rw [if_pos (by omega)]
  rw [if_neg (by simp only [OUT_BUFFER_SIZE]; omega)]
  rw [if_pos (by simp only [List.length_set]; omega)]
  rw [if_neg (by simp only [OUT_BUFFER_SIZE]; omega)]
  rw [if_neg (by simp only [List.length_set]; omega)]

theorem sendShortsOuter_cons_some (buf : List Nat) (x nd : Nat) (t1 : List Int)
    (ts : List (List Int)) (buf2 : List Nat) (x2 nd2 : Nat)
    (h : sendShortsInner buf x nd t1 = some (buf2, x2, nd2)) :
    sendShortsOuter buf x nd (t1 :: ts) = sendShortsOuter buf2 x2 nd2 ts := by
  have e : sendShortsOuter buf x nd (t1 :: ts)
      = match sendShortsInner buf x nd t1 with
        | none => none
        | some (buf1, x1, nd1) => sendShortsOuter buf1 x1 nd1 ts := rfl
  rw [e, h]

theorem sendShortsOuter_cons_none (buf : List Nat) (x nd : Nat) (t1 : List Int)
    (ts : List (List Int))
    (h : sendShortsInner buf x nd t1 = none) :
    sendShortsOuter buf x nd (t1 :: ts) = none := by
  unfold sendShortsOuter
  rw [h]

theorem sendShorts_none_of_outer_none (s : PacketTool) (d : Nat) (t : PacketTypeEnum)
    (pData : List (List Int))
    (h : sendShortsOuter (s.prepareHeader d t 1).1.outBuffer
        (s.prepareHeader d t 1).2 0 pData = none) :
    s.sendSignedShortIntsFromListOfTuples d t pData = none := by
  unfold PacketTool.sendSignedShortIntsFromListOfTuples
  dsimp only
  rw [h]

/-- C7 fails on the code: the inner-loop `break` of
`sendSignedShortIntsFromListOfTuples` only leaves the current tuple, so
when the buffer-full point (write index 1023) is reached inside one tuple
and another tuple follows, the loop resumes writing and runs past the end
of the 1025-byte output array — an uncaught `IndexError` (modelled as
`none`) instead of silent truncation. -/
theorem C7_send_shorts_crashes_across_tuple_boundary :
    (mkPacketTool 0).sendSignedShortIntsFromListOfTuples 1 PacketTypeEnum.NO_PKT
      [List.replicate 508 0, [0, 0]] = none := by
  have hblen : (headerBytes 1 0 PacketTypeEnum.NO_PKT 1
      ++ List.replicate 1018 0).length = 1025 := by
    rw [List.length_append, List.length_replicate]
    rfl
  obtain ⟨buf2, heq, hlen2⟩ := sendShortsInner_zero_break 508
    (headerBytes 1 0 PacketTypeEnum.NO_PKT 1 ++ List.replicate 1018 0) 7 0
    hblen (by omega) (by omega) (by omega)
  apply sendShorts_none_of_outer_none
  rw [prepareHeader_fresh]
  show sendShortsOuter (headerBytes 1 0 PacketTypeEnum.NO_PKT 1
      ++ List.replicate 1018 0) 7 0 [List.replicate 508 0, [0, 0]] = none
  rw [sendShortsOuter_cons_some _ _ _ _ _ _ _ _ heq,
    sendShortsOuter_cons_none _ _ _ _ _
      (sendShortsInner_crash_at_1023 buf2 (0 + 2 * 508) hlen2)]
end SpudLink
